import Mathlib

/-!
Verification of the ChemGraph evaluation scripts against their specification.

The development shallowly embeds the evaluation and data-generation scripts of
the repository: the tool-call comparator used by the mock-LLM evaluation, the
accuracy loop of `evaluate_model`, and the per-item main loops of the
manual-workflow and LLM-workflow scripts.  External collaborators (the LLM
agent, the chemistry tools, the git subprocess) are modelled as explicit
function parameters returning `Except`, so that an exception raised by a
collaborator is an `Except.error` value and Python control flow (try/except,
early return, falling off the end of a function) becomes explicit case
analysis.
-/

set_option linter.unusedVariables false

namespace ChemGraphSpec

/-- JSON-like values: the arguments of a tool call are a mapping from strings
to nested values, exactly the shape of the JSON payloads the scripts log. -/
inductive JValue where
  | str (s : String)
  | num (q : ℚ)
  | bool (b : Bool)
  | null
  | arr (items : List JValue)
  | obj (fields : List (String × JValue))

/-- Whether an object field list has a binding for key `k`. -/
def hasKey (k : String) : List (String × JValue) → Bool
  | [] => false
  | (k2, _) :: rest => decide (k2 = k) || hasKey k rest

/-- Every key of `a` also occurs in `b` (detects missing or extra keys). -/
def keysSub (a b : List (String × JValue)) : Bool :=
  a.all fun p => hasKey p.1 b

mutual

/-- Modelled from the spec: the deep structural comparison used by the
tool-call comparator of `chemgraph.utils.tool_call_eval` (the module itself is
not part of the sources).  Per the spec it is "a nested mapping/sequence
equality check that tolerates key-order differences but not
missing/extra/differing values". -/
def jequiv : JValue → JValue → Bool
  | JValue.str a, JValue.str b => decide (a = b)
  | JValue.num a, JValue.num b => decide (a = b)
  | JValue.bool a, JValue.bool b => decide (a = b)
  | JValue.null, JValue.null => true
  | JValue.arr a, JValue.arr b => jarrEquiv a b
  | JValue.obj a, JValue.obj b => keysSub a b && keysSub b a && jfieldsEquiv a b
  | _, _ => false
termination_by v w => (sizeOf v, sizeOf w)

/-- Pointwise comparison of two JSON sequences (order-sensitive). -/
def jarrEquiv : List JValue → List JValue → Bool
  | [], [] => true
  | v :: vs, w :: ws => jequiv v w && jarrEquiv vs ws
  | _, _ => false
termination_by a b => (sizeOf a, sizeOf b)

/-- Every binding of the first field list has an equivalent binding in the
second (key-order insensitive). -/
def jfieldsEquiv : List (String × JValue) → List (String × JValue) → Bool
  | [], _ => true
  | (k, v) :: rest, b => jfieldMatch k v b && jfieldsEquiv rest b
termination_by a b => (sizeOf a, sizeOf b)

/-- Whether the field list `b` has a binding of key `k` whose value is
equivalent to `v`. -/
def jfieldMatch (k : String) (v : JValue) : List (String × JValue) → Bool
  | [] => false
  | (k2, w) :: rest => (decide (k2 = k) && jequiv v w) || jfieldMatch k v rest
termination_by b => (sizeOf v, sizeOf b)

end

/-- One recorded tool invocation: a tool name with keyword arguments
(the data model of the spec). -/
structure ToolCall where
  name : String
  arguments : List (String × JValue)

/-- A schema descriptor for an available tool (name and parameter spec), as
produced by `convert_to_openai_function` in `mock_eval.py`.  The spec gives the
descriptors no role in per-position scoring, so the comparator model carries
them without consulting them. -/
structure FuncDesc where
  name : String
  parameters : JValue

/-- Modelled from the spec: a call is accurate when its name matches the
expected name and its arguments are equivalent under the deep structural
comparison. -/
def callAccurate (observed expected : ToolCall) : Bool :=
  decide (observed.name = expected.name)
    && jequiv (JValue.obj observed.arguments) (JValue.obj expected.arguments)

/-- Modelled from the spec: the per-position diff of the comparator.  Matching
proceeds by index alignment; a missing call at a position is scored
inaccurate, never fatal. -/
def positionResults : List ToolCall → List ToolCall → List Bool
  | _, [] => []
  | [], _ :: es => false :: positionResults [] es
  | o :: os, e :: es => callAccurate o e :: positionResults os es

/-- The comparison outcome between an observed and an expected sequence. -/
structure EvalResult where
  n_toolcalls : Nat
  acc_n_toolcalls : Nat
  details : List Bool

/-- Modelled from the spec: `multi_function_checker_with_order` of
`chemgraph.utils.tool_call_eval` (the module is imported by `mock_eval.py`
but its source is not in the repository snapshot).  It returns the total
expected call count, the count of index-aligned accurate matches, and the
per-call diff. -/
def multi_function_checker_with_order (func_descriptions : List FuncDesc)
    (model_outputs answers : List ToolCall) : EvalResult :=
  let details := positionResults model_outputs answers
  { n_toolcalls := answers.length
    acc_n_toolcalls := details.count true
    details := details }

/-- One entry of the ground-truth queries file read by `evaluate_model`:
a query string and the expected tool calls of its answer. -/
structure QueryItem where
  query : String
  answer_tool_calls : List ToolCall

/-- The accuracy condition of `evaluate_model` (mock_eval.py line 81): a query
counts as accurate exactly when `acc_n_toolcalls == n_toolcalls`. -/
def countsAsAccurate (fds : List FuncDesc) (model_outputs answers : List ToolCall) : Bool :=
  (multi_function_checker_with_order fds model_outputs answers).acc_n_toolcalls
    == (multi_function_checker_with_order fds model_outputs answers).n_toolcalls

/-- The collection loop of `evaluate_model`: for each query, run the agent
(`cg.run` followed by `get_workflow_from_state`, modelled as one fallible
call) with the item index as thread id.  There is no try/except around the
loop body, so an agent failure aborts the whole function. -/
def collectToolCalls (agent : Nat → String → Except String (List ToolCall)) :
    Nat → List QueryItem → Except String (List (List ToolCall))
  | _, [] => Except.ok []
  | idx, item :: rest =>
    match agent idx item.query with
    | Except.error e => Except.error e
    | Except.ok calls =>
      match collectToolCalls agent (idx + 1) rest with
      | Except.error e => Except.error e
      | Except.ok more => Except.ok (calls :: more)

/-- The accumulation of `accurate_tool_call` over the evaluation loop of
`evaluate_model` (mock_eval.py lines 73-82). -/
def accurateToolCallCount (fds : List FuncDesc) :
    List (List ToolCall) → List QueryItem → Nat
  | calls :: cs, item :: items =>
    (if countsAsAccurate fds calls item.answer_tool_calls then 1 else 0)
      + accurateToolCallCount fds cs items
  | _, _ => 0

/-- The core of `evaluate_model` (mock_eval.py): collect one tool-call list
per query, count the fully accurate queries, and compute
`accurate_tool_call / len(llm_tool_calls) * 100`.  The Python division raises
`ZeroDivisionError` when `llm_tool_calls` is empty; the embedding returns that
failure as an `Except.error`. -/
def evaluate_model (agent : Nat → String → Except String (List ToolCall))
    (fds : List FuncDesc) (list_of_queries : List QueryItem) : Except String ℚ :=
  match collectToolCalls agent 0 list_of_queries with
  | Except.error e => Except.error e
  | Except.ok llm_tool_calls =>
    let accurate := accurateToolCallCount fds llm_tool_calls list_of_queries
    if llm_tool_calls.length = 0 then
      Except.error "ZeroDivisionError: division by zero"
    else
      Except.ok ((accurate : ℚ) / (llm_tool_calls.length : ℚ) * 100)


/-- Collection of per-query tool-call lists for an agent that never fails,
used to state facts about successful runs of `evaluate_model`. -/
def collectPure (f : Nat → String → List ToolCall) :
    Nat → List QueryItem → List (List ToolCall)
  | _, [] => []
  | idx, item :: rest => f idx item.query :: collectPure f (idx + 1) rest

/-- A molecule dataset item (`{name, smiles, ...}`) as read by the scripts. -/
structure Molecule where
  name : String
  smiles : String

/-- One reactant or product of a reaction dataset item. -/
structure Species where
  name : String
  coefficient : ℚ

/-- A reaction dataset item. -/
structure Reaction where
  reaction_index : Nat
  reaction_name : String
  reactants : List Species
  products : List Species

/-- The metadata object written by the manual-workflow scripts. -/
structure Metadata where
  timestamp : String
  git_commit : String

/-- Outcome of the `git rev-parse HEAD` subprocess call: success with the
decoded stdout, a nonzero exit status (Python raises
`subprocess.CalledProcessError`), or any other failure of the call (for
example `FileNotFoundError` when no git executable exists). -/
inductive GitOutcome where
  | ok (stdout : String)
  | calledProcessError (returncode : Int)
  | otherFailure (msg : String)

/-- Whether the outcome is one the scripts catch (success or nonzero exit). -/
def GitOutcome.isHandled : GitOutcome → Bool
  | GitOutcome.otherFailure _ => false
  | _ => true

/-- The commit string the scripts end up with for a handled git outcome. -/
def commitString : GitOutcome → String
  | GitOutcome.ok s => s.trim
  | GitOutcome.calledProcessError _ => "unknown"
  | GitOutcome.otherFailure m => m

/-- The metadata-collection try/except of the manual-workflow scripts: the
`except` clause names only `subprocess.CalledProcessError`, so a nonzero exit
degrades to `"unknown"` while any other failure of the lookup propagates. -/
def git_commit_of : GitOutcome → Except String String
  | GitOutcome.ok s => Except.ok s.trim
  | GitOutcome.calledProcessError _ => Except.ok "unknown"
  | GitOutcome.otherFailure m => Except.error m

/-- The opaque state returned by `cg.run`. -/
structure AgentState where
  raw : JValue

/-- The workflow dict produced by `get_workflow_from_state`: a result payload
and the recorded tool calls. -/
structure LlmWorkflow where
  result : JValue
  tool_calls : List ToolCall

/-- The structure object returned by `smiles_to_atomsdata`: atomic numbers and
its serialized `model_dump()`. -/
structure AtomsData where
  numbers : List Nat
  dump : JValue

/-- The input assembled for `run_ase` (the `ASEInputSchema` payload). -/
structure ASEInput where
  atomsdata : AtomsData
  driver : String
  calculator : JValue
  temperature : Option ℚ

/-- The parts of the `run_ase` output the scripts consume. -/
structure ASEOutput where
  thermochemistry : List (String × ℚ)
  final_structure_dump : JValue

/-- The external chemistry tools the manual workflows invoke, each fallible.
Failures of `ASEInputSchema` validation are folded into the `run_ase` call,
which the scripts always perform in the same try block. -/
structure Tools where
  molecule_name_to_smiles : String → Except String String
  smiles_to_atomsdata : String → Except String AtomsData
  run_ase : ASEInput → Except String ASEOutput
  save_atomsdata_to_file : JValue → String → Except String JValue

/-- Tool-call log record `{"molecule_name_to_smiles": {"name": name}}`. -/
def mntsLog (name : String) : ToolCall :=
  ⟨"molecule_name_to_smiles", [("name", JValue.str name)]⟩

/-- Tool-call log record `{"smiles_to_atomsdata": {"smiles": smiles}}`. -/
def staLog (smiles : String) : ToolCall :=
  ⟨"smiles_to_atomsdata", [("smiles", JValue.str smiles)]⟩

/-- Tool-call log record for the `run_ase` invocation of an `opt` driver. -/
def runAseOptLog (ad : AtomsData) (calculator : JValue) : ToolCall :=
  ⟨"run_ase", [("params", JValue.obj
    [("atomsdata", ad.dump), ("driver", JValue.str "opt"), ("calculator", calculator)])]⟩

/-- Tool-call log record for the `run_ase` invocation of a `thermo` driver. -/
def runAseThermoLog (ad : AtomsData) (calculator : JValue) (temperature : ℚ) : ToolCall :=
  ⟨"run_ase", [("params", JValue.obj
    [("atomsdata", ad.dump), ("driver", JValue.str "thermo"), ("calculator", calculator),
     ("temperature", JValue.num temperature)])]⟩

/-- Tool-call log record for the `save_atomsdata_to_file` invocation. -/
def saveLog (dump : JValue) (fname : String) : ToolCall :=
  ⟨"save_atomsdata_to_file", [("atomsdata", dump), ("fname", JValue.str fname)]⟩

namespace Exp3

/-- The query template dictionary of Exp3's `get_query`. -/
def query_dict (name method : String) : List (String × String) :=
  [("name_to_coord", "Provide the XYZ coordinates corresponding to this molecule: " ++ name),
   ("name_to_opt", "Perform geometry optimization for a molecule " ++ name
     ++ " using NWChem, PBE and sto-3g"),
   ("name_to_vib", "Run vibrational frequency calculation for a molecule " ++ name
     ++ " using " ++ method),
   ("name_to_enthalpy", "Calculate the enthalpy of a molecule " ++ name ++ " using " ++ method),
   ("name_to_gibbs", "Calculate the Gibbs free energy of a molecule " ++ name ++ " using "
     ++ method ++ " potential at a temperature of 400K"),
   ("name_to_opt_file", "Perform geometry optimization for a molecule " ++ name ++ " using "
     ++ method ++ ". Save the optimized coordinate in an XYZ file.")]

/-- Exp3 `get_query`: `query_dict.get(query_name, "Query not found")`. -/
def get_query (name query_name method : String) : String :=
  ((query_dict name method).lookup query_name).getD "Query not found"

/-- One value of Exp3's `combined_data`: the error path stores only an
`llm_workflow` dict and never writes a `metadata` key. -/
structure Entry where
  llm_workflow : LlmWorkflow
  metadata : Option JValue

/-- The per-item loop of Exp3's `main`: the whole body sits in a try/except,
so a failing run is recorded as an error entry and iteration continues. -/
def main_writes (run : Nat → String → Except String AgentState)
    (get_workflow_from_state : AgentState → LlmWorkflow)
    (write_state : Nat → JValue) : Nat → List Molecule → List (String × Entry)
  | _, [] => []
  | idx, m :: rest =>
    let entry : Entry :=
      match run idx (get_query m.name "name_to_opt" "mace_mp") with
      | Except.ok state => ⟨get_workflow_from_state state, some (write_state idx)⟩
      | Except.error e => ⟨⟨JValue.str ("Error with running LLM: " ++ e), []⟩, none⟩
    (m.name, entry) :: main_writes run get_workflow_from_state write_state (idx + 1) rest

/-- Exp3 `main`: iterate over the first `n_structures` molecules. -/
def main (run : Nat → String → Except String AgentState)
    (get_workflow_from_state : AgentState → LlmWorkflow) (write_state : Nat → JValue)
    (smiles_data : List Molecule) (n_structures : Nat) : List (String × Entry) :=
  main_writes run get_workflow_from_state write_state 0 (smiles_data.take n_structures)

end Exp3

namespace Exp8

/-- The query template dictionary of Exp8's `get_query`. -/
def query_dict (smiles method : String) : List (String × String) :=
  [("smiles_to_coord", "Provide the XYZ coordinates corresponding to this SMILES string: "
     ++ smiles),
   ("smiles_to_opt", "Perform geometry optimization for this SMILES string " ++ smiles
     ++ " using NWChem, B3LYP and sto-3g"),
   ("smiles_to_vib", "Run vibrational frequency calculation for this SMILES string " ++ smiles
     ++ " using " ++ method),
   ("smiles_to_enthalpy", "Calculate the enthalpy of this SMILES string " ++ smiles
     ++ " using " ++ method),
   ("smiles_to_gibbs", "Calculate the Gibbs free energy of this SMILES string " ++ smiles
     ++ " using " ++ method ++ " at T=400K"),
   ("smiles_to_opt_file", "Perform geometry optimization for this SMILES string " ++ smiles
     ++ " using " ++ method ++ ". Save the optimized coordinate in an XYZ file.")]

/-- Exp8 `get_query`: `query_dict.get(query_name, "Query not found")`. -/
def get_query (smiles query_name method : String) : String :=
  ((query_dict smiles method).lookup query_name).getD "Query not found"

/-- One value of Exp8's `combined_data`: the metadata key holds the agent
state dict returned by `cca.write_state`, not a timestamp/git pair. -/
structure Entry where
  llm_workflow : LlmWorkflow
  metadata : JValue

/-- The per-item loop of Exp8's `main`: the body has no try/except, so a
failure while processing one molecule propagates and aborts the batch. -/
def main_writes (run : Nat → String → Except String AgentState)
    (get_workflow_from_state : AgentState → LlmWorkflow)
    (write_state : Nat → JValue) : Nat → List Molecule → Except String (List (String × Entry))
  | _, [] => Except.ok []
  | idx, m :: rest =>
    match run idx (get_query m.smiles "smiles_to_opt" "mace_mp") with
    | Except.error e => Except.error e
    | Except.ok state =>
      match main_writes run get_workflow_from_state write_state (idx + 1) rest with
      | Except.error e => Except.error e
      | Except.ok more =>
        Except.ok ((m.smiles, ⟨get_workflow_from_state state, write_state idx⟩) :: more)

/-- Exp8 `main`: iterate over the first `n_structures` molecules. -/
def main (run : Nat → String → Except String AgentState)
    (get_workflow_from_state : AgentState → LlmWorkflow) (write_state : Nat → JValue)
    (smiles_data : List Molecule) (n_structures : Nat) :
    Except String (List (String × Entry)) :=
  main_writes run get_workflow_from_state write_state 0 (smiles_data.take n_structures)

end Exp8

namespace Exp14

/-- The reaction equation string assembled by Exp14's `get_query`. -/
def reaction_equation (reaction : Reaction) : String :=
  String.intercalate " + "
      (reaction.reactants.map fun r => toString r.coefficient ++ " (" ++ r.name ++ ")")
    ++ " -> "
    ++ String.intercalate " + "
      (reaction.products.map fun p => toString p.coefficient ++ " (" ++ p.name ++ ")")

/-- The query template dictionary of Exp14's `get_query`. -/
def query_dict (reaction : Reaction) (temperature : ℚ) (method : String) :
    List (String × String) :=
  [("enthalpy", "Calculate the reaction enthalpy for this reaction: "
     ++ reaction_equation reaction),
   ("enthalpy_method", "You are given a chemical reaction: " ++ reaction_equation reaction
     ++ ". Calculate the enthalpy for this reaction using " ++ method ++ " at "
     ++ toString temperature ++ "K."),
   ("gibbs_free_energy", "What is the Gibbs free energy of reaction for "
     ++ reaction_equation reaction ++ "?"),
   ("gibbs_free_energy_method", "What is the Gibbs free energy of reaction for "
     ++ reaction_equation reaction ++ " using " ++ method ++ "?"),
   ("gibbs_free_energy_method_temperature", "What is the Gibbs free energy of reaction for "
     ++ reaction_equation reaction ++ " using " ++ method ++ " at "
     ++ toString temperature ++ "K?")]

/-- Exp14 `get_query`: `query_dict.get(query_name, "Query not found")`.
The `pressure` argument is accepted but unused, as in the source. -/
def get_query (reaction : Reaction) (query_name : String) (temperature pressure : ℚ)
    (method : String) : String :=
  ((query_dict reaction temperature method).lookup query_name).getD "Query not found"

end Exp14

namespace Exp6

/-- The workflow dict the Exp6 functions build: tool-call log and a result. -/
structure Workflow where
  tool_calls : List ToolCall
  result : JValue

/-- What an Exp6 manual-workflow function hands back on its caught paths:
either the workflow dict or the plain string `"Error message: <e>"`. -/
inductive ManualOut where
  | wf (w : Workflow)
  | errString (s : String)

/-- Exp6 `get_smiles_from_molecule_name`: on success the workflow dict is
returned; the except branch appends to the local dict and stores
`"ERROR - <e>"` in it but contains no return statement, so the function falls
off the end and returns `None`. -/
def get_smiles_from_molecule_name (t : Tools) (name : String) : Option Workflow :=
  match t.molecule_name_to_smiles name with
  | Except.ok result => some ⟨[mntsLog name], JValue.str result⟩
  | Except.error _ => none

/-- Exp6 `get_atomsdata_from_molecule_name`: both tool invocations sit inside
the try block, and the except branch returns `"Error message: <e>"`. -/
def get_atomsdata_from_molecule_name (t : Tools) (name : String) : ManualOut :=
  match t.molecule_name_to_smiles name with
  | Except.error e => ManualOut.errString ("Error message: " ++ e)
  | Except.ok smiles =>
    match t.smiles_to_atomsdata smiles with
    | Except.error e => ManualOut.errString ("Error message: " ++ e)
    | Except.ok ad => ManualOut.wf ⟨[mntsLog name, staLog smiles], ad.dump⟩

/-- Exp6 `get_geometry_optimization_from_molecule_name`: the
`molecule_name_to_smiles` and `smiles_to_atomsdata` invocations happen before
the try block, so their failures propagate out of the function; only the
`run_ase` part is caught and recorded as `"Error message: <e>"`. -/
def get_geometry_optimization_from_molecule_name (t : Tools) (name : String)
    (calculator : JValue) : Except String ManualOut :=
  match t.molecule_name_to_smiles name with
  | Except.error e => Except.error e
  | Except.ok smiles =>
    match t.smiles_to_atomsdata smiles with
    | Except.error e => Except.error e
    | Except.ok ad =>
      match t.run_ase ⟨ad, "opt", calculator, none⟩ with
      | Except.error e => Except.ok (ManualOut.errString ("Error message: " ++ e))
      | Except.ok out =>
        Except.ok (ManualOut.wf
          ⟨[mntsLog name, staLog smiles, runAseOptLog ad calculator],
           out.final_structure_dump⟩)

/-- Exp6 `get_saved_file_from_molecule_name`: like the geometry optimization,
the first two tool invocations precede the try block and propagate; the
`run_ase` and `save_atomsdata_to_file` parts are caught. -/
def get_saved_file_from_molecule_name (t : Tools) (name : String) (calculator : JValue)
    (output_path : String) : Except String ManualOut :=
  match t.molecule_name_to_smiles name with
  | Except.error e => Except.error e
  | Except.ok smiles =>
    match t.smiles_to_atomsdata smiles with
    | Except.error e => Except.error e
    | Except.ok ad =>
      match t.run_ase ⟨ad, "opt", calculator, none⟩ with
      | Except.error e => Except.ok (ManualOut.errString ("Error message: " ++ e))
      | Except.ok out =>
        match t.save_atomsdata_to_file out.final_structure_dump
            (output_path ++ "/" ++ name ++ ".xyz") with
        | Except.error e => Except.ok (ManualOut.errString ("Error message: " ++ e))
        | Except.ok result =>
          Except.ok (ManualOut.wf
            ⟨[mntsLog name, staLog smiles, runAseOptLog ad calculator,
              saveLog out.final_structure_dump (output_path ++ "/" ++ name ++ ".xyz")],
             result⟩)

/-- One value of Exp6's `combined_data`. -/
structure Entry where
  manual_workflow : ManualOut
  metadata : Metadata

/-- The calculator dict Exp6's `main` passes to the workflow. -/
def mace_calculator : JValue := JValue.obj [("calculator_type", JValue.str "mace_mp")]

/-- The per-item loop of Exp6's `main`: the workflow call sits in a try/except
whose except clause prints and continues, so a failing item is skipped and the
rest of the batch still runs; the git lookup is guarded separately. -/
def main_writes (t : Tools) (ts : Nat → String) (git : Nat → GitOutcome) :
    Nat → List Molecule → Except String (List (String × Entry))
  | _, [] => Except.ok []
  | idx, m :: rest =>
    match get_saved_file_from_molecule_name t m.name mace_calculator "manual_files" with
    | Except.error _ => main_writes t ts git (idx + 1) rest
    | Except.ok mw =>
      match git_commit_of (git idx) with
      | Except.error e => Except.error e
      | Except.ok gc =>
        match main_writes t ts git (idx + 1) rest with
        | Except.error e => Except.error e
        | Except.ok more => Except.ok ((m.name, ⟨mw, ⟨ts idx, gc⟩⟩) :: more)

/-- Exp6 `main`: iterate over the first `n_structures` molecules. -/
def main (t : Tools) (ts : Nat → String) (git : Nat → GitOutcome)
    (smiles_data : List Molecule) (n_structures : Nat) :
    Except String (List (String × Entry)) :=
  main_writes t ts git 0 (smiles_data.take n_structures)

end Exp6

namespace Exp12

/-- Exp12 `process_species`: for each species run the three tools, extend the
shared tool-call log, and accumulate `sign * thermochemistry[prop] * coeff`.
The log is extended before the property lookup, so calls of already processed
species survive a later failure; any tool failure stops the traversal and is
reported to the caller together with the log accumulated so far. -/
def process_species (t : Tools) (calculator : JValue) (temperature : ℚ) (prop : String)
    (sign : ℚ) : List Species → List ToolCall → ℚ → List ToolCall × Except String ℚ
  | [], logs, total => (logs, Except.ok total)
  | s :: rest, logs, total =>
    match t.molecule_name_to_smiles s.name with
    | Except.error e => (logs, Except.error e)
    | Except.ok smiles =>
      match t.smiles_to_atomsdata smiles with
      | Except.error e => (logs, Except.error e)
      | Except.ok ad =>
        match t.run_ase ⟨ad, "thermo", calculator, some temperature⟩ with
        | Except.error e => (logs, Except.error e)
        | Except.ok out =>
          let logs2 := logs ++ [mntsLog s.name, staLog smiles,
            runAseThermoLog ad calculator temperature]
          match out.thermochemistry.lookup prop with
          | none => (logs2, Except.error ("'" ++ prop ++ "'"))
          | some v =>
            process_species t calculator temperature prop sign rest logs2
              (total + sign * v * s.coefficient)

/-- The `result.value` of an Exp12 workflow: a number on success, the string
`"ERROR - <e>"` on a caught failure. -/
inductive ResultValue where
  | num (q : ℚ)
  | err (s : String)

/-- The workflow dict built by Exp12's `get_manual_workflow_result`. -/
structure Workflow where
  tool_calls : List ToolCall
  value : ResultValue
  property : String
  unit : String

/-- Exp12 `get_manual_workflow_result`: process reactants with sign -1 and
products with sign +1 inside one try block; the except clause overwrites
`result.value` with `"ERROR - <e>"` and still returns the workflow dict. -/
def get_manual_workflow_result (t : Tools) (reaction : Reaction) (prop : String)
    (temperature : ℚ) (calculator : JValue) : Workflow :=
  match process_species t calculator temperature prop (-1) reaction.reactants [] 0 with
  | (logs1, Except.error e) => ⟨logs1, ResultValue.err ("ERROR - " ++ e), prop, "eV"⟩
  | (logs1, Except.ok t1) =>
    match process_species t calculator temperature prop 1 reaction.products logs1 t1 with
    | (logs2, Except.error e) => ⟨logs2, ResultValue.err ("ERROR - " ++ e), prop, "eV"⟩
    | (logs2, Except.ok t2) => ⟨logs2, ResultValue.num t2, prop, "eV"⟩

/-- One value of Exp12's `combined_data`. -/
structure Entry where
  manual_workflow : Workflow
  metadata : Metadata

/-- The calculator dict Exp12's `main` passes to the workflow. -/
def tblite_calculator : JValue :=
  JValue.obj [("calculator_type", JValue.str "TBLite"), ("method", JValue.str "GFN2-xTB")]

/-- The per-item loop of Exp12's `main`: every reaction yields an entry (the
workflow function is total), and per-item metadata is collected with the
git try/except. -/
def main_writes (t : Tools) (ts : Nat → String) (git : Nat → GitOutcome) :
    Nat → List Reaction → Except String (List (String × Entry))
  | _, [] => Except.ok []
  | idx, r :: rest =>
    let mw := get_manual_workflow_result t r "enthalpy" 400 tblite_calculator
    match git_commit_of (git idx) with
    | Except.error e => Except.error e
    | Except.ok gc =>
      match main_writes t ts git (idx + 1) rest with
      | Except.error e => Except.error e
      | Except.ok more => Except.ok ((r.reaction_name, ⟨mw, ⟨ts idx, gc⟩⟩) :: more)

/-- Exp12 `main`: iterate over the first `n_reactions` reactions. -/
def main (t : Tools) (ts : Nat → String) (git : Nat → GitOutcome)
    (reactions : List Reaction) (n_reactions : Nat) :
    Except String (List (String × Entry)) :=
  main_writes t ts git 0 (reactions.take n_reactions)

end Exp12

/-- A tool record whose every invocation fails, for concrete evaluations. -/
def failingTools : Tools :=
  ⟨fun _ => Except.error "boom", fun _ => Except.error "boom",
   fun _ => Except.error "boom", fun _ _ => Except.error "boom"⟩

/-- A concrete reaction dataset item for concrete evaluations. -/
def sampleReaction : Reaction :=
  ⟨0, "combustion", [⟨"hydrogen", 2⟩, ⟨"oxygen", 1⟩], [⟨"water", 2⟩]⟩

/-- A concrete tool call for concrete evaluations. -/
def toolCallA : ToolCall := ⟨"molecule_name_to_smiles", [("name", JValue.str "water")]⟩

/-- A second concrete tool call, with a different name. -/
def toolCallB : ToolCall := ⟨"smiles_to_atomsdata", [("smiles", JValue.str "O")]⟩

/-! ### Properties of the embedding -/


theorem hasKey_of_mem {k : String} {v : JValue} {b : List (String × JValue)}
    (h : (k, v) ∈ b) : hasKey k b = true := by
  induction b with
  | nil => cases h
  | cons p rest ih =>
    rcases p with ⟨k2, w⟩
    rw [List.mem_cons] at h
    rcases h with h | h
    · cases h
      simp [hasKey]
    · simp [hasKey, ih h]

theorem keysSub_self (a : List (String × JValue)) : keysSub a a = true := by
  rw [keysSub, List.all_eq_true]
  intro p hp
  rcases p with ⟨k, v⟩
  exact hasKey_of_mem hp

theorem jfieldMatch_of_mem {k : String} {v : JValue} {b : List (String × JValue)}
    (hmem : (k, v) ∈ b) (hrefl : jequiv v v = true) : jfieldMatch k v b = true := by
  induction b with
  | nil => cases hmem
  | cons p rest ih =>
    rcases p with ⟨k2, w⟩
    rw [List.mem_cons] at hmem
    rcases hmem with h | h
    · cases h
      simp [jfieldMatch, hrefl]
    · simp [jfieldMatch, ih h]

theorem jfieldsEquiv_of_forall {a b : List (String × JValue)}
    (h : ∀ p ∈ a, jfieldMatch p.1 p.2 b = true) : jfieldsEquiv a b = true := by
  induction a with
  | nil => simp [jfieldsEquiv]
  | cons p rest ih =>
    rcases p with ⟨k, v⟩
    rw [jfieldsEquiv]
    simp only [Bool.and_eq_true]
    exact ⟨h (k, v) (List.mem_cons_self _ _), ih fun q hq => h q (List.mem_cons_of_mem _ hq)⟩

theorem jarrEquiv_self {a : List JValue}
    (h : ∀ v ∈ a, jequiv v v = true) : jarrEquiv a a = true := by
  induction a with
  | nil => simp [jarrEquiv]
  | cons v rest ih =>
    rw [jarrEquiv]
    simp only [Bool.and_eq_true]
    exact ⟨h v (List.mem_cons_self _ _), ih fun w hw => h w (List.mem_cons_of_mem _ hw)⟩

theorem jequiv_refl_aux : ∀ (n : Nat) (v : JValue), sizeOf v ≤ n → jequiv v v = true := by
  intro n
  induction n with
  | zero =>
    intro v h
    exfalso
    cases v <;> simp at h
  | succ n ih =>
    intro v h
    cases v with
    | str s => simp [jequiv]
    | num q => simp [jequiv]
    | bool b => simp [jequiv]
    | null => simp [jequiv]
    | arr items =>
      rw [jequiv]
      apply jarrEquiv_self
      intro w hw
      apply ih
      have h1 : sizeOf w < sizeOf items := List.sizeOf_lt_of_mem hw
      simp at h
      omega
    | obj fields =>
      rw [jequiv]
      simp only [Bool.and_eq_true]
      refine ⟨⟨keysSub_self _, keysSub_self _⟩, ?_⟩
      apply jfieldsEquiv_of_forall
      intro p hp
      rcases p with ⟨k, v⟩
      apply jfieldMatch_of_mem hp
      apply ih
      have h1 : sizeOf (k, v) < sizeOf fields := List.sizeOf_lt_of_mem hp
      simp at h h1
      omega

theorem jequiv_refl (v : JValue) : jequiv v v = true :=
  jequiv_refl_aux (sizeOf v) v (Nat.le_refl _)

theorem callAccurate_refl (c : ToolCall) : callAccurate c c = true := by
  simp [callAccurate, jequiv_refl]

theorem positionResults_self (l : List ToolCall) :
    positionResults l l = List.replicate l.length true := by
  induction l with
  | nil => rfl
  | cons c rest ih => simp [positionResults, callAccurate_refl, ih, List.replicate]

theorem positionResults_length (os es : List ToolCall) :
    (positionResults os es).length = es.length := by
  induction es generalizing os with
  | nil => cases os <;> rfl
  | cons e rest ih => cases os <;> simp [positionResults, ih]

theorem positionResults_append {x y : List ToolCall} (u v : List ToolCall)
    (h : x.length = y.length) :
    positionResults (x ++ u) (y ++ v) = positionResults x y ++ positionResults u v := by
  induction x generalizing y with
  | nil =>
    cases y with
    | nil => rfl
    | cons b bs => simp at h
  | cons a as ih =>
    cases y with
    | nil => simp at h
    | cons b bs =>
      simp at h
      simp [positionResults, ih h]

theorem acc_le_n (fds : List FuncDesc) (os es : List ToolCall) :
    (multi_function_checker_with_order fds os es).acc_n_toolcalls
      ≤ (multi_function_checker_with_order fds os es).n_toolcalls := by
  rw [multi_function_checker_with_order]
  calc (positionResults os es).count true ≤ (positionResults os es).length :=
        List.count_le_length _ _
    _ = es.length := positionResults_length os es

theorem count_true_le (os es : List ToolCall) :
    (positionResults os es).count true ≤ es.length := by
  calc (positionResults os es).count true ≤ (positionResults os es).length :=
        List.count_le_length _ _
    _ = es.length := positionResults_length os es

theorem lookup_none_of_not_mem {β : Type} (l : List (String × β)) (k : String)
    (h : k ∉ l.map Prod.fst) : l.lookup k = none := by
  induction l with
  | nil => rfl
  | cons p rest ih =>
    rcases p with ⟨k2, v⟩
    simp only [List.map_cons, List.mem_cons] at h
    push_neg at h
    obtain ⟨h1, h2⟩ := h
    simp [List.lookup, beq_eq_false_iff_ne.mpr h1, ih h2]

theorem countsAsAccurate_empty (fds : List FuncDesc) (observed : List ToolCall) :
    countsAsAccurate fds observed [] = true := by
  cases observed <;> rfl

theorem collectToolCalls_ok (f : Nat → String → List ToolCall) (idx : Nat)
    (items : List QueryItem) :
    collectToolCalls (fun i q => Except.ok (f i q)) idx items
      = Except.ok (collectPure f idx items) := by
  induction items generalizing idx with
  | nil => rfl
  | cons item rest ih => simp [collectToolCalls, collectPure, ih]

theorem collectPure_length (f : Nat → String → List ToolCall) (idx : Nat)
    (items : List QueryItem) : (collectPure f idx items).length = items.length := by
  induction items generalizing idx with
  | nil => rfl
  | cons item rest ih => simp [collectPure, ih]

theorem accurateToolCallCount_all_empty (fds : List FuncDesc) (cs : List (List ToolCall))
    (items : List QueryItem) (hlen : cs.length = items.length)
    (hempty : ∀ q ∈ items, q.answer_tool_calls = []) :
    accurateToolCallCount fds cs items = items.length := by
  induction items generalizing cs with
  | nil =>
    cases cs with
    | nil => rfl
    | cons c cs2 => simp at hlen
  | cons item rest ih =>
    cases cs with
    | nil => simp at hlen
    | cons c cs2 =>
      simp at hlen
      rw [accurateToolCallCount]
      rw [hempty item (List.mem_cons_self _ _), countsAsAccurate_empty]
      rw [ih cs2 hlen fun q hq => hempty q (List.mem_cons_of_mem _ hq)]
      simp [Nat.add_comm]

theorem git_commit_of_isHandled (g : GitOutcome) (h : g.isHandled = true) :
    git_commit_of g = Except.ok (commitString g) := by
  cases g with
  | ok s => rfl
  | calledProcessError rc => rfl
  | otherFailure m => simp [GitOutcome.isHandled] at h

theorem exp3_writes_cover (run : Nat → String → Except String AgentState)
    (gw : AgentState → LlmWorkflow) (ws : Nat → JValue) (idx : Nat)
    (items : List Molecule) :
    (Exp3.main_writes run gw ws idx items).map Prod.fst = items.map Molecule.name := by
  induction items generalizing idx with
  | nil => rfl
  | cons m rest ih => simp [Exp3.main_writes, ih]

theorem exp8_abort_on_failure (gw : AgentState → LlmWorkflow) (ws : Nat → JValue)
    (idx : Nat) (items : List Molecule) (msg : String) (hne : items ≠ []) :
    Exp8.main_writes (fun _ _ => Except.error msg) gw ws idx items
      = Except.error msg := by
  cases items with
  | nil => exact absurd rfl hne
  | cons m rest => rfl

theorem exp6_writes_filterMap (t : Tools) (ts : Nat → String) (git : Nat → GitOutcome)
    (idx : Nat) (items : List Molecule) (hgit : ∀ i, (git i).isHandled = true) :
    Exp6.main_writes t ts git idx items
      = Except.ok ((items.enumFrom idx).filterMap fun p =>
          match Exp6.get_saved_file_from_molecule_name t p.2.name Exp6.mace_calculator
              "manual_files" with
          | Except.error _ => none
          | Except.ok mw => some (p.2.name, ⟨mw, ⟨ts p.1, commitString (git p.1)⟩⟩)) := by
  induction items generalizing idx with
  | nil => rfl
  | cons m rest ih =>
    rw [Exp6.main_writes]
    cases hw : Exp6.get_saved_file_from_molecule_name t m.name Exp6.mace_calculator
        "manual_files" with
    | error e => simp [ih, List.enumFrom, List.filterMap, hw]
    | ok mw =>
      rw [git_commit_of_isHandled (git idx) (hgit idx), ih]
      simp [List.enumFrom, List.filterMap, hw]

theorem exp12_writes_ok (t : Tools) (ts : Nat → String) (git : Nat → GitOutcome)
    (idx : Nat) (reactions : List Reaction) (hgit : ∀ i, (git i).isHandled = true) :
    Exp12.main_writes t ts git idx reactions
      = Except.ok ((reactions.enumFrom idx).map fun p =>
          (p.2.reaction_name,
           ⟨Exp12.get_manual_workflow_result t p.2 "enthalpy" 400 Exp12.tblite_calculator,
            ⟨ts p.1, commitString (git p.1)⟩⟩)) := by
  induction reactions generalizing idx with
  | nil => rfl
  | cons r rest ih =>
    rw [Exp12.main_writes, git_commit_of_isHandled (git idx) (hgit idx), ih]
    simp [List.enumFrom]

theorem exp8_writes_ok (st : Nat → String → AgentState) (gw : AgentState → LlmWorkflow)
    (ws : Nat → JValue) (idx : Nat) (items : List Molecule) :
    Exp8.main_writes (fun i q => Except.ok (st i q)) gw ws idx items
      = Except.ok ((items.enumFrom idx).map fun p =>
          (p.2.smiles,
           ⟨gw (st p.1 (Exp8.get_query p.2.smiles "smiles_to_opt" "mace_mp")), ws p.1⟩)) := by
  induction items generalizing idx with
  | nil => rfl
  | cons m rest ih =>
    rw [Exp8.main_writes, ih]
    simp [List.enumFrom]

/-! ### The claims -/

/-- C1: for every pair of observed and expected tool-call sequences that are
identical (same call names, same arguments, same order), the comparator
`multi_function_checker_with_order` returns a result whose `acc_n_toolcalls`
field equals its `n_toolcalls` field. -/
theorem identical_sequences_full_match (fds : List FuncDesc) (calls : List ToolCall) :
    (multi_function_checker_with_order fds calls calls).acc_n_toolcalls
      = (multi_function_checker_with_order fds calls calls).n_toolcalls := by
  simp [multi_function_checker_with_order, positionResults_self, List.count_replicate_self]

/-- C2: for an observed sequence that consists of exactly the calls of the
expected sequence but with two calls in swapped order (the swap being visible
to the comparator, i.e. the observed call at the first swapped position does
not match the expected call there), `acc_n_toolcalls` is strictly less than
`n_toolcalls`: a correct call set in the wrong order is not a full match. -/
theorem swapped_order_not_full_match (fds : List FuncDesc)
    (pre mid post : List ToolCall) (a b : ToolCall)
    (h : callAccurate b a = false) :
    (multi_function_checker_with_order fds (pre ++ b :: (mid ++ a :: post))
        (pre ++ a :: (mid ++ b :: post))).acc_n_toolcalls
      < (multi_function_checker_with_order fds (pre ++ b :: (mid ++ a :: post))
        (pre ++ a :: (mid ++ b :: post))).n_toolcalls := by
  have hsplit := positionResults_append (x := pre) (y := pre)
    (b :: (mid ++ a :: post)) (a :: (mid ++ b :: post)) rfl
  have hcons : positionResults (b :: (mid ++ a :: post)) (a :: (mid ++ b :: post))
      = callAccurate b a :: positionResults (mid ++ a :: post) (mid ++ b :: post) := rfl
  have h1 : (positionResults pre pre).count true ≤ pre.length := count_true_le pre pre
  have h2 : (positionResults (mid ++ a :: post) (mid ++ b :: post)).count true
      ≤ (mid ++ b :: post).length := count_true_le _ _
  simp only [multi_function_checker_with_order]
  rw [hsplit, hcons, h, List.count_append, List.count_cons]
  have hif : (if (false == true) = true then 1 else 0) = 0 := by simp
  rw [hif]
  simp only [List.length_append, List.length_cons] at h2 ⊢
  omega

/-- C2 at a concrete input: two distinct calls in swapped order score below a
full match. -/
theorem swapped_order_not_full_match_check :
    callAccurate toolCallB toolCallA = false ∧
    (multi_function_checker_with_order [] [toolCallB, toolCallA]
        [toolCallA, toolCallB]).acc_n_toolcalls
      < (multi_function_checker_with_order [] [toolCallB, toolCallA]
        [toolCallA, toolCallB]).n_toolcalls := by
  have hfalse : callAccurate toolCallB toolCallA = false := by
    simp [callAccurate, toolCallA, toolCallB]
  exact ⟨hfalse, swapped_order_not_full_match [] [] [] [] toolCallA toolCallB hfalse⟩

/-- C8: for every name for which `molecule_name_to_smiles.invoke` raises,
Exp6's `get_smiles_from_molecule_name` returns `None` (the except branch
mutates the local workflow dict but contains no return statement), not the
workflow dict its signature promises. -/
theorem get_smiles_returns_none_on_error (t : Tools) (name msg : String)
    (h : t.molecule_name_to_smiles name = Except.error msg) :
    Exp6.get_smiles_from_molecule_name t name = none := by
  rw [Exp6.get_smiles_from_molecule_name, h]

/-- C8 at a concrete input: a failing name lookup yields `none`. -/
theorem get_smiles_returns_none_on_error_check :
    Exp6.get_smiles_from_molecule_name failingTools "water" = none :=
  get_smiles_returns_none_on_error failingTools "water" "boom" rfl

/-- C9: called on an input file whose JSON is an empty list of queries,
`evaluate_model` reaches the unguarded division
`accurate_tool_call / len(llm_tool_calls)` with a zero denominator and raises
`ZeroDivisionError`. -/
theorem evaluate_model_empty_input_zero_division
    (agent : Nat → String → Except String (List ToolCall)) (fds : List FuncDesc) :
    evaluate_model agent fds [] = Except.error "ZeroDivisionError: division by zero" := rfl

/-- C10: in each of the three `run_llm_workflow` scripts, `get_query` applied
to a `query_name` that is not a key of the script's query template dictionary
returns the string "Query not found" and never raises. -/
theorem unknown_query_name_default (name smiles method : String) (reaction : Reaction)
    (temperature pressure : ℚ) (query_name : String)
    (h3 : query_name ∉ (Exp3.query_dict name method).map Prod.fst)
    (h8 : query_name ∉ (Exp8.query_dict smiles method).map Prod.fst)
    (h14 : query_name ∉ (Exp14.query_dict reaction temperature method).map Prod.fst) :
    Exp3.get_query name query_name method = "Query not found" ∧
    Exp8.get_query smiles query_name method = "Query not found" ∧
    Exp14.get_query reaction query_name temperature pressure method = "Query not found" := by
  refine ⟨?_, ?_, ?_⟩
  · rw [Exp3.get_query, lookup_none_of_not_mem _ _ h3]
    rfl
  · rw [Exp8.get_query, lookup_none_of_not_mem _ _ h8]
    rfl
  · rw [Exp14.get_query, lookup_none_of_not_mem _ _ h14]
    rfl

/-- C3 counterexample: Exp8's `run_llm_workflow` loop has no per-item
try/except, so the failure of the first molecule aborts the whole batch and
no entry is produced for the second molecule. -/
theorem exp8_failure_stops_batch_example :
    Exp8.main (fun _ _ => Except.error "boom") (fun s => ⟨s.raw, []⟩) (fun _ => JValue.null)
      [⟨"water", "O"⟩, ⟨"ethanol", "CCO"⟩] 2 = Except.error "boom" := rfl

/-- C3 amended: per-item failures are contained in Exp3's main loop (every
item yields an entry) and in Exp6's main loop (a failing item is skipped and
the remaining items are still processed), and Exp12 contains failures inside
`get_manual_workflow_result`; but Exp8's main loop has no per-item try/except,
so a failure while processing one item aborts the batch. -/
theorem per_item_containment_amended
    (run : Nat → String → Except String AgentState) (gw : AgentState → LlmWorkflow)
    (ws : Nat → JValue) (t : Tools) (ts : Nat → String) (git : Nat → GitOutcome)
    (idx : Nat) (items : List Molecule) (msg : String)
    (hgit : ∀ i, (git i).isHandled = true) (hne : items ≠ []) :
    (Exp3.main_writes run gw ws idx items).map Prod.fst = items.map Molecule.name ∧
    Exp6.main_writes t ts git idx items
      = Except.ok ((items.enumFrom idx).filterMap fun p =>
          match Exp6.get_saved_file_from_molecule_name t p.2.name Exp6.mace_calculator
              "manual_files" with
          | Except.error _ => none
          | Except.ok mw => some (p.2.name, ⟨mw, ⟨ts p.1, commitString (git p.1)⟩⟩)) ∧
    Exp8.main_writes (fun _ _ => Except.error msg) gw ws idx items = Except.error msg :=
  ⟨exp3_writes_cover run gw ws idx items,
   exp6_writes_filterMap t ts git idx items hgit,
   exp8_abort_on_failure gw ws idx items msg hne⟩

/-- C3 amended at a concrete input. -/
theorem per_item_containment_amended_check :
    (Exp3.main_writes (fun _ _ => Except.error "x") (fun s => ⟨s.raw, []⟩)
        (fun _ => JValue.null) 0 [⟨"water", "O"⟩]).map Prod.fst
      = [Molecule.mk "water" "O"].map Molecule.name ∧
    Exp6.main_writes failingTools (fun _ => "t") (fun _ => GitOutcome.ok "abc") 0
        [⟨"water", "O"⟩]
      = Except.ok (([(⟨"water", "O"⟩ : Molecule)].enumFrom 0).filterMap fun p =>
          match Exp6.get_saved_file_from_molecule_name failingTools p.2.name
              Exp6.mace_calculator "manual_files" with
          | Except.error _ => none
          | Except.ok mw => some (p.2.name, ⟨mw, ⟨"t", commitString (GitOutcome.ok "abc")⟩⟩)) ∧
    Exp8.main_writes (fun _ _ => Except.error "boom") (fun s => ⟨s.raw, []⟩)
        (fun _ => JValue.null) 0 [⟨"water", "O"⟩] = Except.error "boom" :=
  per_item_containment_amended _ _ _ _ _ _ _ _ _ (fun _ => rfl) (by simp)

/-- C4 counterexample: in Exp6's
`get_geometry_optimization_from_molecule_name` the `molecule_name_to_smiles`
invocation precedes the try block, so its failure propagates out of the
function instead of being caught and recorded as an error string. -/
theorem exp6_geometry_uncaught_tool_failure_example :
    Exp6.get_geometry_optimization_from_molecule_name failingTools "water"
      Exp6.mace_calculator = Except.error "boom" := rfl

/-- C4 amended: in the cited functions the recording holds — Exp6's
`get_atomsdata_from_molecule_name` turns any tool failure into the returned
string `"Error message: <e>"`, and Exp12's `get_manual_workflow_result`
always returns a workflow whose result value is either a number or
`"ERROR - <e>"` — but not every manual-workflow function contains every tool
invocation in its try block. -/
theorem workflow_error_recording_amended (t : Tools) (name msg : String)
    (reaction : Reaction) (prop : String) (temperature : ℚ) (calculator : JValue) :
    (t.molecule_name_to_smiles name = Except.error msg →
      Exp6.get_atomsdata_from_molecule_name t name
        = Exp6.ManualOut.errString ("Error message: " ++ msg)) ∧
    (∀ smiles, t.molecule_name_to_smiles name = Except.ok smiles →
      t.smiles_to_atomsdata smiles = Except.error msg →
      Exp6.get_atomsdata_from_molecule_name t name
        = Exp6.ManualOut.errString ("Error message: " ++ msg)) ∧
    ((∃ q, (Exp12.get_manual_workflow_result t reaction prop temperature calculator).value
        = Exp12.ResultValue.num q) ∨
     (∃ e, (Exp12.get_manual_workflow_result t reaction prop temperature calculator).value
        = Exp12.ResultValue.err ("ERROR - " ++ e))) := by
  refine ⟨?_, ?_, ?_⟩
  · intro h
    simp [Exp6.get_atomsdata_from_molecule_name, h]
  · intro smiles h1 h2
    simp [Exp6.get_atomsdata_from_molecule_name, h1, h2]
  · rcases h1 : Exp12.process_species t calculator temperature prop (-1)
        reaction.reactants [] 0 with ⟨logs1, r1⟩
    cases r1 with
    | error e =>
      right
      exact ⟨e, by simp [Exp12.get_manual_workflow_result, h1]⟩
    | ok t1 =>
      rcases h2 : Exp12.process_species t calculator temperature prop 1
          reaction.products logs1 t1 with ⟨logs2, r2⟩
      cases r2 with
      | error e =>
        right
        exact ⟨e, by simp [Exp12.get_manual_workflow_result, h1, h2]⟩
      | ok t2 =>
        left
        exact ⟨t2, by simp [Exp12.get_manual_workflow_result, h1, h2]⟩

/-- C4 amended at a concrete input: a failing name lookup is recorded as an
error string by `get_atomsdata_from_molecule_name`. -/
theorem workflow_error_recording_amended_check :
    Exp6.get_atomsdata_from_molecule_name failingTools "water"
      = Exp6.ManualOut.errString ("Error message: " ++ "boom") :=
  (workflow_error_recording_amended failingTools "water" "boom" sampleReaction "enthalpy"
    400 Exp12.tblite_calculator).1 rfl

/-- C5 counterexample: a failure of the git lookup that is not a nonzero exit
status (for example a missing git executable) is not caught: it propagates
instead of being recorded as "unknown". -/
theorem git_other_failure_propagates_example :
    git_commit_of (GitOutcome.otherFailure "FileNotFoundError: git")
        = Except.error "FileNotFoundError: git" ∧
      git_commit_of (GitOutcome.otherFailure "FileNotFoundError: git")
        ≠ Except.ok "unknown" :=
  ⟨rfl, by simp [git_commit_of]⟩

/-- C5 amended: when the git subprocess exits with a nonzero status
(`subprocess.CalledProcessError`), the scripts silently record `"unknown"`
and the per-item loop continues; other failures of the lookup are not
caught. -/
theorem git_nonzero_exit_unknown (rc : Int) (t : Tools) (ts : Nat → String)
    (r : Reaction) (idx : Nat) :
    git_commit_of (GitOutcome.calledProcessError rc) = Except.ok "unknown" ∧
    Exp12.main_writes t ts (fun _ => GitOutcome.calledProcessError rc) idx [r]
      = Except.ok [(r.reaction_name,
          ⟨Exp12.get_manual_workflow_result t r "enthalpy" 400 Exp12.tblite_calculator,
           ⟨ts idx, "unknown"⟩⟩)] :=
  ⟨rfl, rfl⟩

/-- C6 counterexample: in Exp3's `run_llm_workflow`, a processed item whose
run fails is written with an `llm_workflow` entry only — no `metadata` key at
all, let alone one with `timestamp` and `git_commit` fields. -/
theorem exp3_error_entry_no_metadata_example :
    (Exp3.main_writes (fun _ _ => Except.error "boom") (fun s => ⟨s.raw, []⟩)
        (fun _ => JValue.null) 0 [⟨"water", "O"⟩]).map (fun p => p.2.metadata)
      = [none] := rfl

/-- C6 amended: the manual-workflow script Exp12 maps every processed item's
key to `{manual_workflow, metadata: {timestamp, git_commit}}`; the
llm-workflow scripts instead store the agent state dict returned by
`cca.write_state` under the metadata key (and Exp3's error path stores no
metadata at all). -/
theorem exp12_output_shape_amended (t : Tools) (ts : Nat → String)
    (git : Nat → GitOutcome) (reactions : List Reaction) (n : Nat)
    (st : Nat → String → AgentState) (gw : AgentState → LlmWorkflow) (ws : Nat → JValue)
    (items : List Molecule) (hgit : ∀ i, (git i).isHandled = true) :
    Exp12.main t ts git reactions n
      = Except.ok (((reactions.take n).enumFrom 0).map fun p =>
          (p.2.reaction_name,
           ⟨Exp12.get_manual_workflow_result t p.2 "enthalpy" 400 Exp12.tblite_calculator,
            ⟨ts p.1, commitString (git p.1)⟩⟩)) ∧
    Exp8.main_writes (fun i q => Except.ok (st i q)) gw ws 0 items
      = Except.ok ((items.enumFrom 0).map fun p =>
          (p.2.smiles,
           ⟨gw (st p.1 (Exp8.get_query p.2.smiles "smiles_to_opt" "mace_mp")), ws p.1⟩)) :=
  ⟨exp12_writes_ok t ts git 0 (reactions.take n) hgit, exp8_writes_ok st gw ws 0 items⟩

/-- C6 amended at a concrete input. -/
theorem exp12_output_shape_amended_check :
    Exp12.main failingTools (fun _ => "t") (fun _ => GitOutcome.ok "abc")
        [sampleReaction] 1
      = Except.ok ((([sampleReaction].take 1).enumFrom 0).map fun p =>
          (p.2.reaction_name,
           ⟨Exp12.get_manual_workflow_result failingTools p.2 "enthalpy" 400
              Exp12.tblite_calculator,
            ⟨"t", commitString (GitOutcome.ok "abc")⟩⟩)) ∧
    Exp8.main_writes (fun i q => Except.ok (AgentState.mk JValue.null))
        (fun s => ⟨s.raw, []⟩) (fun _ => JValue.null) 0 []
      = Except.ok ((([] : List Molecule).enumFrom 0).map fun p =>
          (p.2.smiles,
           ⟨(fun s => (⟨s.raw, []⟩ : LlmWorkflow)) (AgentState.mk JValue.null),
            JValue.null⟩)) :=
  exp12_output_shape_amended _ _ _ _ _ (fun _ _ => AgentState.mk JValue.null) _ _ _
    (fun _ => rfl)

/-- C7: for a query whose expected tool-call sequence is empty, the comparator
reports `n_toolcalls = 0`, the accuracy condition of `evaluate_model` counts
the query as fully accurate (it increments exactly when
`acc_n_toolcalls == n_toolcalls`), and a run whose queries all have empty
expected sequences scores accuracy 100. -/
theorem empty_expected_vacuously_accurate (fds : List FuncDesc)
    (observed : List ToolCall) (agent0 : Nat → String → List ToolCall)
    (queries : List QueryItem) (hne : queries ≠ [])
    (hempty : ∀ q ∈ queries, q.answer_tool_calls = []) :
    (multi_function_checker_with_order fds observed []).n_toolcalls = 0 ∧
    countsAsAccurate fds observed [] = true ∧
    evaluate_model (fun i q => Except.ok (agent0 i q)) fds queries = Except.ok 100 := by
  refine ⟨rfl, countsAsAccurate_empty fds observed, ?_⟩
  unfold evaluate_model
  rw [collectToolCalls_ok]
  show (if (collectPure agent0 0 queries).length = 0 then
      (Except.error "ZeroDivisionError: division by zero" : Except String ℚ)
    else Except.ok
      ((accurateToolCallCount fds (collectPure agent0 0 queries) queries : ℚ)
        / ((collectPure agent0 0 queries).length : ℚ) * 100)) = Except.ok 100
  have hlen := collectPure_length agent0 0 queries
  have hne2 : (collectPure agent0 0 queries).length ≠ 0 := by
    rw [hlen]
    exact fun h => hne (List.length_eq_zero.mp h)
  rw [if_neg hne2,
    accurateToolCallCount_all_empty fds (collectPure agent0 0 queries) queries hlen hempty,
    hlen]
  have hq : ((queries.length : ℚ)) ≠ 0 :=
    Nat.cast_ne_zero.mpr fun h => hne (List.length_eq_zero.mp h)
  rw [div_self hq, one_mul]

/-- C7 at a concrete input. -/
theorem empty_expected_vacuously_accurate_check :
    (multi_function_checker_with_order [] [] []).n_toolcalls = 0 ∧
    countsAsAccurate [] [] [] = true ∧
    evaluate_model (fun i q => Except.ok ([] : List ToolCall)) [] [⟨"q", []⟩]
      = Except.ok 100 :=
  empty_expected_vacuously_accurate [] [] (fun _ _ => []) [⟨"q", []⟩] (by simp)
    (by intro q hq; rw [List.mem_singleton] at hq; subst hq; rfl)

/-- C10 at a concrete input: the unknown query name "atomsdata" (the default
of two of the scripts, absent from all three dictionaries) yields the default
string in each script. -/
theorem unknown_query_name_default_check :
    Exp3.get_query "water" "atomsdata" "mace_mp" = "Query not found" ∧
    Exp8.get_query "O" "atomsdata" "mace_mp" = "Query not found" ∧
    Exp14.get_query sampleReaction "atomsdata" 400 101325 "mace_mp" = "Query not found" :=
  unknown_query_name_default "water" "O" "mace_mp" sampleReaction 400 101325 "atomsdata"
    (by decide) (by decide) (by decide)

end ChemGraphSpec
